import Mathlib

/-!
Verification of the Terminal-Tutor state validation engine.

This file is a shallow embedding of the repository's validation engine
(`src/engine/validator.ts`) and its subprocess executor
(`src/engine/executor.ts`).  Asynchronous I/O is modelled by a `World`
record of oracle functions (directory listings, stat results, file
contents, subprocess outcomes); evaluators run in a small monad that
threads an effect log (for the read-only frame property) and a thrown
JavaScript error (for the dispatcher's catch-all).  JavaScript string
operations used by the source (`trim`, `replace`, `split`, `includes`,
`toLowerCase`) are modelled character-exactly on ASCII data.
-/

namespace TerminalTutor

/-- JavaScript whitespace recognised by `String.prototype.trim` (the ASCII
part; the source only meets ASCII whitespace in paths and git output). -/
def isJsWs (c : Char) : Bool :=
  c == ' ' || c == '\t' || c == '\n' || c == '\x0d' || c == '\x0b' || c == '\x0c'

/-- `s.trim()`: drop JavaScript whitespace from both ends. -/
def jsTrim (s : String) : String :=
  ⟨((s.data.dropWhile isJsWs).reverse.dropWhile isJsWs).reverse⟩

/-- `p.replace(/\\/g, '/')`: every backslash becomes a forward slash. -/
def replaceBackslashes (s : String) : String :=
  ⟨s.data.map (fun c => if c == '\\' then '/' else c)⟩

/-- `p.replace(/\r/g, '')`: drop every carriage return. -/
def stripCR (s : String) : String :=
  ⟨s.data.filter (fun c => c != '\x0d')⟩

/-- `p.replace(/^\.\/+/, '')`: if the string starts with a dot followed by
one or more slashes, remove the dot and that whole run of slashes (the
regex is anchored and non-global, so only this first run is removed). -/
def stripLeadingDotSlash (s : String) : String :=
  match s.data with
  | '.' :: '/' :: rest => ⟨rest.dropWhile (fun c => c == '/')⟩
  | _ => s

/-- `validator.ts` line 125: `normalizeRel`. -/
def normalizeRel (p : String) : String :=
  jsTrim (stripLeadingDotSlash (replaceBackslashes p))

/-- `validator.ts` line 129: `normalizeGitEntry`. -/
def normalizeGitEntry (p : String) : String :=
  normalizeRel (stripCR p)

/-- `String.prototype.toLowerCase` (ASCII; filenames and git output in
this system are ASCII). -/
def jsToLower (s : String) : String :=
  ⟨s.data.map Char.toLower⟩

/-- Whether one character list is a prefix of another. -/
def listStartsWith : List Char → List Char → Bool
  | [], _ => true
  | _ :: _, [] => false
  | p :: ps, c :: cs => p == c && listStartsWith ps cs

/-- `String.prototype.startsWith`. -/
def jsStartsWith (s pre : String) : Bool :=
  listStartsWith pre.data s.data

/-- Substring search on character lists (the needle is nonempty at call
sites). -/
def listContainsSub (needle : List Char) : List Char → Bool
  | [] => listStartsWith needle []
  | c :: cs => listStartsWith needle (c :: cs) || listContainsSub needle cs

/-- `String.prototype.includes`: substring containment (an empty needle is
always found). -/
def jsIncludes (s sub : String) : Bool :=
  if sub == "" then true else listContainsSub sub.data s.data

/-- `String.prototype.split` with a one-character separator (the source
splits on `'\0'`, `'\n'` and `' '` only): JavaScript yields `[""]` on the
empty string and keeps empty pieces. -/
def splitOnChar (sep : Char) : List Char → List (List Char)
  | [] => [[]]
  | c :: rest =>
      match splitOnChar sep rest with
      | [] => if c == sep then [[], []] else [[c]]
      | piece :: pieces =>
          if c == sep then [] :: piece :: pieces else (c :: piece) :: pieces

/-- `s.split(sep)` for a one-character separator, as strings. -/
def jsSplit (s : String) (sep : Char) : List String :=
  (splitOnChar sep s.data).map (fun l => ⟨l⟩)

/-- `Array.prototype.join(sep)`. -/
def joinSep (sep : String) : List String → String
  | [] => ""
  | [x] => x
  | x :: rest => x ++ sep ++ joinSep sep rest

/-- `b.replace('*', '')` with a plain-string pattern: remove only the first
occurrence of the character. -/
def removeFirstChar (target : Char) : List Char → List Char
  | [] => []
  | c :: rest => if c == target then rest else c :: removeFirstChar target rest

/-- `b.replace('*', '')` on a string. -/
def removeFirstStar (s : String) : String :=
  ⟨removeFirstChar '*' s.data⟩

/-- Node `path.posix`-style `dirname` for the already-normalized paths the
validator builds (no trailing slashes): everything before the last slash,
or `"."` when there is none. -/
def pathDirname (s : String) : String :=
  match (s.data.reverse.dropWhile (fun c => c != '/')) with
  | [] => "."
  | _ :: butLast => ⟨butLast.reverse⟩

/-- Node `path.posix`-style `basename` for such paths: everything after the
last slash. -/
def pathBasename (s : String) : String :=
  ⟨(s.data.reverse.takeWhile (fun c => c != '/')).reverse⟩

/-- Node `path.posix`-style `join` of a directory and a relative component,
for the shapes the validator uses (`join(cwd, rel)`, `join(dirname rel,
base)`): joining onto `"."` yields the component itself. -/
def pathJoin (a b : String) : String :=
  if a == "." then b else a ++ "/" ++ b

/-- Outcome of the awaited `execa` call in `executor.ts`: the promise either
resolves with an exit code (possibly `undefined`, hence `Option`) and the
captured output, or rejects with a thrown value (`isError` tells whether it
is a JavaScript `Error`, whose `message` is recorded). -/
inductive ExecaOutcome where
  | resolved (exitCode : Option Int) (stdout stderr : String)
  | rejected (isError : Bool) (message : String)
deriving DecidableEq

/-- `executor.ts`: the `ExecutionResult` interface. -/
structure ExecutionResult where
  success : Bool
  stdout : String
  stderr : String
  error : Option String := none
deriving DecidableEq

/-- `executor.ts` lines 12-51: `executeCommand`, with the `execa` library
call abstracted as an oracle.  The `try` body maps a resolved call to
`success = (exitCode === 0)` with the captured output; the `catch` maps a
rejection to a failed result with empty output and an error message
(`'Unknown error'` when the thrown value is not an `Error`). -/
def executeCommand (execa : String → String → ExecaOutcome)
    (command cwd : String) : ExecutionResult :=
  match execa command cwd with
  | .resolved exitCode stdout stderr =>
      { success := exitCode == some 0, stdout := stdout, stderr := stderr }
  | .rejected isError message =>
      { success := false, stdout := "", stderr := "",
        error := some (if isError then message else "Unknown error") }

/-- One observable I/O action of the validator: every effect it issues is a
directory listing, a stat, a file read, an access probe, or a subprocess
command. -/
inductive Effect where
  | readdir (dir : String)
  | stat (p : String)
  | readFile (p : String)
  | access (p : String)
  | exec (cmd : String) (cwd : String)
deriving DecidableEq

/-- The validator monad: threads the ordered log of issued effects and a
thrown JavaScript error (its message), which the dispatcher catches. -/
def VM (α : Type) : Type := List Effect → Except String α × List Effect

def VM.pure {α : Type} (a : α) : VM α := fun fx => (Except.ok a, fx)

def VM.bind {α β : Type} (m : VM α) (f : α → VM β) : VM β := fun fx =>
  match m fx with
  | (Except.ok a, fx2) => f a fx2
  | (Except.error e, fx2) => (Except.error e, fx2)

instance : Monad VM where
  pure := VM.pure
  bind := VM.bind

/-- `throw new Error(e)`. -/
def VM.throw {α : Type} (e : String) : VM α := fun fx => (Except.error e, fx)

/-- Record one issued effect. -/
def VM.log (e : Effect) : VM Unit := fun fx => (Except.ok (), fx ++ [e])

/-- The environment an evaluation runs against: the platform flag read at
module load (`os.platform() === 'win32'`), the filesystem oracles
(`fs.readdir` returning `none` when it throws, `fs.stat` returning whether
the entry is a regular file or the thrown message, `fs.readFile`,
`fs.access` success), and the `execa` subprocess oracle. -/
structure World where
  isWindows : Bool
  readdir : String → Option (List String)
  statIsFile : String → Except String Bool
  readFile : String → Except String String
  accessOk : String → Bool
  execa : String → String → ExecaOutcome

/-- Issue a subprocess command through `executeCommand` (which never
throws), logging the effect. -/
def runExec (w : World) (command cwd : String) : VM ExecutionResult := do
  VM.log (Effect.exec command cwd)
  pure (executeCommand w.execa command cwd)

/-- `validator.ts` lines 133-141: `getCaseMatches`.  A throwing `readdir`
is caught and yields no matches. -/
def getCaseMatches (w : World) (dirPath targetName : String) : VM (List String) := do
  VM.log (Effect.readdir dirPath)
  match w.readdir dirPath with
  | none => pure []
  | some entries =>
      pure (entries.filter (fun e => jsToLower e == jsToLower targetName))

/-- `validator.ts` lines 143-150: `getActualFilename`.  Two or more
case-colliding entries throw an ambiguity `Error` naming them all. -/
def getActualFilename (w : World) (dirPath targetName : String) : VM (Option String) := do
  let ms ← getCaseMatches w dirPath targetName
  match ms with
  | [] => pure none
  | [m] => pure (some m)
  | _ => VM.throw ("Multiple entries match '" ++ targetName ++
      "' with different casing: " ++ joinSep ", " ms ++ ". Keep only one.")

/-- Parse a null-byte-separated git listing: split on `'\0'`, normalize
each entry, drop empties (`filter(Boolean)`). -/
def parseNullList (stdout : String) : List String :=
  ((jsSplit stdout '\x00').map normalizeGitEntry).filter (fun s => s != "")

/-- `validator.ts` lines 152-159: `getStagedEntries` (`null` on command
failure). -/
def getStagedEntries (w : World) (cwd : String) : VM (Option (List String)) := do
  let res ← runExec w "git diff --cached --name-only -z" cwd
  if res.success then pure (some (parseNullList res.stdout)) else pure none

/-- `validator.ts` lines 161-168: `getTrackedEntries`. -/
def getTrackedEntries (w : World) (cwd : String) : VM (Option (List String)) := do
  let res ← runExec w "git ls-files -z" cwd
  if res.success then pure (some (parseNullList res.stdout)) else pure none

/-- Result of `uniqueCaseInsensitiveMatch`; the source field `match` is a
Lean keyword, rendered here as `matched`. -/
structure CiMatch where
  matched : Option String
  ambiguous : Bool
deriving DecidableEq

/-- `validator.ts` lines 170-176: `uniqueCaseInsensitiveMatch`. -/
def uniqueCaseInsensitiveMatch (list : List String) (target : String) : CiMatch :=
  let t := jsToLower target
  let hits := list.filter (fun x => jsToLower x == t)
  match hits with
  | [] => ⟨none, false⟩
  | [h] => ⟨some h, false⟩
  | _ => ⟨none, true⟩

/-- `validator.ts`: the `ValidationResult` interface. -/
structure ValidationResult where
  passed : Bool
  message : String
  resolvedFile : Option String := none
deriving DecidableEq

/-- Reflect a thrown error as a value: models a JavaScript `try`/`catch`
that wraps only part of an evaluator's body. -/
def VM.attempt {α : Type} (m : VM α) : VM (Except String α) := fun fx =>
  match m fx with
  | (Except.ok a, fx2) => (Except.ok (Except.ok a), fx2)
  | (Except.error e, fx2) => (Except.ok (Except.error e), fx2)

/-- `validator.ts` lines 228-242: `validateGitInitialized`.  The source
only probes `fs.access(cwd/.git)` inside a `try`; the entry's kind is not
inspected. -/
def validateGitInitialized (w : World) (cwd : String) : VM ValidationResult := do
  let gitDir := pathJoin cwd ".git"
  VM.log (Effect.access gitDir)
  if w.accessOk gitDir then
    pure { passed := true, message := "Git repository initialized successfully" }
  else
    pure { passed := false, message := "Git repository not found. Try: git init" }

/-- `validator.ts` lines 244-288: `validateFileExists`.  Only the
`getActualFilename` call sits in a `try` (its ambiguity error becomes the
verdict); a throwing `fs.stat` propagates to the dispatcher.  The console
note on a case mismatch is a display side effect and is not part of the
verdict. -/
def validateFileExists (w : World) (cwd file : String) : VM ValidationResult := do
  let rel := normalizeRel file
  let dirAbs := pathDirname (pathJoin cwd rel)
  let expectedBase := pathBasename rel
  let r ← VM.attempt (getActualFilename w dirAbs expectedBase)
  match r with
  | Except.error e => pure { passed := false, message := e }
  | Except.ok none => pure { passed := false, message := "File " ++ file ++ " not found" }
  | Except.ok (some actualBase) => do
    let actualAbs := pathJoin dirAbs actualBase
    VM.log (Effect.stat actualAbs)
    match w.statIsFile actualAbs with
    | Except.error e => VM.throw e
    | Except.ok isFile =>
      if isFile = false then
        let fix := if w.isWindows then
            "rmdir /s /q " ++ actualBase ++ " && echo Hello>" ++ expectedBase
          else
            "rm -rf " ++ actualBase ++ " && echo \"Hello\" > " ++ expectedBase
        pure { passed := false,
               message := "A folder named '" ++ actualBase ++ "' exists, but a file named '" ++
                 expectedBase ++ "' is required. Do not use mkdir. Fix: " ++ fix,
               resolvedFile := some (normalizeRel (pathJoin (pathDirname rel) actualBase)) }
      else
        pure { passed := true,
               message := "File " ++ file ++ " exists (as " ++ actualBase ++ ")",
               resolvedFile := some (normalizeRel (pathJoin (pathDirname rel) actualBase)) }

/-- The loop body of `validator.ts` lines 290-349 (`validateFilesExist`),
with the accumulators `missing`, `wrongType`, `wrongCase` threaded
explicitly; the base case is the code after the loop (`wrongCase` feeds
only console notes). -/
def validateFilesExistGo (w : World) (cwd : String) :
    List String → List String → List (String × String) → List (String × String) →
    VM ValidationResult
  | [], missing, wrongType, _wrongCase =>
      if wrongType.length > 0 then
        pure { passed := false,
               message := "A folder exists where a file is required: " ++
                 joinSep ", "
                   (wrongType.map (fun wt => wt.1 ++ " (found folder: " ++ wt.2 ++ ")")) }
      else if missing.length == 0 then
        pure { passed := true, message := "All files exist" }
      else
        pure { passed := false, message := "Missing files: " ++ joinSep ", " missing }
  | file :: rest, missing, wrongType, wrongCase => do
      let rel := normalizeRel file
      let dirAbs := pathDirname (pathJoin cwd rel)
      let expectedBase := pathBasename rel
      let r ← VM.attempt (getActualFilename w dirAbs expectedBase)
      match r with
      | Except.error e => pure { passed := false, message := e }
      | Except.ok none => validateFilesExistGo w cwd rest (missing ++ [file]) wrongType wrongCase
      | Except.ok (some actualBase) => do
          let actualAbs := pathJoin dirAbs actualBase
          VM.log (Effect.stat actualAbs)
          match w.statIsFile actualAbs with
          | Except.error e => VM.throw e
          | Except.ok isFile =>
            if isFile = false then
              validateFilesExistGo w cwd rest missing
                (wrongType ++ [(expectedBase, actualBase)]) wrongCase
            else if actualBase != expectedBase then
              validateFilesExistGo w cwd rest missing wrongType
                (wrongCase ++ [(expectedBase, actualBase)])
            else
              validateFilesExistGo w cwd rest missing wrongType wrongCase

/-- `validator.ts` lines 290-349: `validateFilesExist`. -/
def validateFilesExist (w : World) (cwd : String) (files : List String) : VM ValidationResult :=
  validateFilesExistGo w cwd files [] [] []

/-- `validator.ts` lines 351-388: `validateFileStaged` (the `DEBUG`
console traces are display-only). -/
def validateFileStaged (w : World) (cwd file : String) : VM ValidationResult := do
  let staged? ← getStagedEntries w cwd
  match staged? with
  | none => pure { passed := false, message := "Failed to check git status" }
  | some stagedFiles =>
    let target := normalizeGitEntry file
    if stagedFiles.contains target then
      pure { passed := true, message := "File " ++ file ++ " is staged" }
    else
      let cm := uniqueCaseInsensitiveMatch stagedFiles target
      if cm.ambiguous then
        pure { passed := false,
               message := "Multiple staged files match '" ++ file ++ "' ignoring case. Keep only one." }
      else
        match cm.matched with
        | some m =>
            pure { passed := true, message := "File " ++ file ++ " is staged (as " ++ m ++ ")" }
        | none =>
            pure { passed := false,
                   message := "File " ++ file ++ " is not staged. Try: git add " ++ file }

/-- The loop of `validator.ts` lines 390-428 (`validateFilesStaged`) over
the target list, with the `unstaged` accumulator explicit. -/
def validateFilesStagedGo (stagedFiles : List String) :
    List String → List String → VM ValidationResult
  | [], unstaged =>
      if unstaged.length == 0 then
        pure { passed := true, message := "All files are staged" }
      else
        pure { passed := false, message := "Files not staged: " ++ joinSep ", " unstaged }
  | f :: rest, unstaged =>
      let target := normalizeGitEntry f
      if stagedFiles.contains target then
        validateFilesStagedGo stagedFiles rest unstaged
      else
        let cm := uniqueCaseInsensitiveMatch stagedFiles target
        if cm.ambiguous then
          pure { passed := false,
                 message := "Multiple staged files match '" ++ f ++ "' ignoring case. Keep only one." }
        else
          match cm.matched with
          | some _ => validateFilesStagedGo stagedFiles rest unstaged
          | none => validateFilesStagedGo stagedFiles rest (unstaged ++ [f])

/-- `validator.ts` lines 390-428: `validateFilesStaged`. -/
def validateFilesStaged (w : World) (cwd : String) (files : List String) : VM ValidationResult := do
  let staged? ← getStagedEntries w cwd
  match staged? with
  | none => pure { passed := false, message := "Failed to check git status" }
  | some stagedFiles => validateFilesStagedGo stagedFiles files []

/-- `validator.ts` lines 480-525: the tail of `validateFileCommitted`
after `commitTarget` has been reconciled against the tracked list: the
`git log` probe, then the staged-entry progression. -/
def validateFileCommittedGitCheck (w : World)
    (cwd file actualBase commitTarget : String) : VM ValidationResult := do
  let logRes ← runExec w ("git log --oneline -- \"" ++ commitTarget ++ "\"") cwd
  if logRes.success && jsTrim logRes.stdout != "" then
    pure { passed := true, message := "File " ++ file ++ " has been committed",
           resolvedFile := some commitTarget }
  else do
    let staged? ← getStagedEntries w cwd
    match staged? with
    | none => pure { passed := false, message := "Failed to check git status" }
    | some staged =>
      if staged.contains commitTarget then
        pure { passed := false,
               message := "Progress: file staged. Next: commit it. Run: git commit -m \"add " ++
                 pathBasename commitTarget ++ "\"",
               resolvedFile := some commitTarget }
      else
        let scm := uniqueCaseInsensitiveMatch staged commitTarget
        if scm.ambiguous then
          pure { passed := false,
                 message := "Multiple staged files match '" ++ file ++ "' ignoring case. Keep only one." }
        else
          match scm.matched with
          | some stagedMatch =>
              pure { passed := false,
                     message := "Progress: file staged. Next: commit it. Run: git commit -m \"add " ++
                       pathBasename stagedMatch ++ "\"",
                     resolvedFile := some stagedMatch }
          | none =>
              pure { passed := false,
                     message := "Progress: file created. Next: stage it. Run: git add " ++ actualBase,
                     resolvedFile := some commitTarget }

/-- `validator.ts` lines 430-526: `validateFileCommitted`.  The committed
path is reconciled against the tracked-entry list; a tracked-list
ambiguity returns early, before any `git log` probe. -/
def validateFileCommitted (w : World) (cwd file : String) : VM ValidationResult := do
  let rel := normalizeRel file
  let dirAbs := pathDirname (pathJoin cwd rel)
  let expectedBase := pathBasename rel
  let r ← VM.attempt (getActualFilename w dirAbs expectedBase)
  match r with
  | Except.error e => pure { passed := false, message := e }
  | Except.ok none =>
      let createHint := if w.isWindows then "echo hello>" ++ expectedBase
        else "echo \"hello\" > " ++ expectedBase
      pure { passed := false,
             message := "Progress: create the file '" ++ expectedBase ++ "'. Example: " ++ createHint }
  | Except.ok (some actualBase) => do
    let actualAbs := pathJoin dirAbs actualBase
    VM.log (Effect.stat actualAbs)
    match w.statIsFile actualAbs with
    | Except.error e => VM.throw e
    | Except.ok isFile =>
      if isFile = false then
        pure { passed := false,
               message := "A folder named '" ++ actualBase ++ "' exists, but a file named '" ++
                 expectedBase ++ "' is required. Do not use mkdir." }
      else do
        let resolvedRel := normalizeRel (pathJoin (pathDirname rel) actualBase)
        let tracked? ← getTrackedEntries w cwd
        match tracked? with
        | none => validateFileCommittedGitCheck w cwd file actualBase resolvedRel
        | some tracked =>
          if tracked.contains resolvedRel then
            validateFileCommittedGitCheck w cwd file actualBase resolvedRel
          else
            let cm := uniqueCaseInsensitiveMatch tracked resolvedRel
            if cm.ambiguous then
              pure { passed := false,
                     message := "Multiple tracked files match '" ++ file ++ "' ignoring case. Keep only one." }
            else
              match cm.matched with
              | some m => validateFileCommittedGitCheck w cwd file actualBase m
              | none => validateFileCommittedGitCheck w cwd file actualBase resolvedRel

/-- `validator.ts` lines 528-550: `validateCommitExists`.  `if (message)`
treats an empty string like an absent one (JavaScript falsiness). -/
def validateCommitExists (w : World) (cwd : String) (message? : Option String) :
    VM ValidationResult := do
  let result ← runExec w "git log --oneline -1" cwd
  if result.success = false || jsTrim result.stdout == "" then
    pure { passed := false, message := "No commits found. Try: git commit -m \"message\"" }
  else
    match message? with
    | some msg =>
      if msg != "" then
        let commitMessage := jsTrim (joinSep " " ((jsSplit result.stdout ' ').drop 1))
        if jsIncludes commitMessage msg then
          pure { passed := true, message := "Commit created with expected message" }
        else
          pure { passed := false,
                 message := "Commit message doesn't match. Expected: \"" ++ msg ++ "\"" }
      else
        pure { passed := true, message := "Commit exists" }
    | none => pure { passed := true, message := "Commit exists" }

/-- `validator.ts` lines 552-569: `validateBranchExists`.
`b.replace('*', '')` removes only the first star. -/
def validateBranchExists (w : World) (cwd branch : String) : VM ValidationResult := do
  let result ← runExec w "git branch" cwd
  if result.success = false then
    pure { passed := false, message := "Failed to list branches" }
  else
    let branches := (jsSplit result.stdout '\n').map (fun b => jsTrim (removeFirstStar b))
    if branches.contains branch then
      pure { passed := true, message := "Branch " ++ branch ++ " exists" }
    else
      pure { passed := false,
             message := "Branch " ++ branch ++ " not found. Try: git branch " ++ branch }

/-- `validator.ts` lines 571-588: `validateBranchActive`. -/
def validateBranchActive (w : World) (cwd branch : String) : VM ValidationResult := do
  let result ← runExec w "git branch --show-current" cwd
  if result.success = false then
    pure { passed := false, message := "Failed to check current branch" }
  else
    let currentBranch := jsTrim result.stdout
    if currentBranch == branch then
      pure { passed := true, message := "On branch " ++ branch }
    else
      pure { passed := false,
             message := "Not on branch " ++ branch ++ ". Current: " ++ currentBranch ++
               ". Try: git checkout " ++ branch }

/-- `validator.ts` lines 590-613: `validateFileContains`.  The whole body
sits in a `try`; a throwing `stat` or `readFile` becomes the
`Failed to read` verdict.  No case-insensitive resolution happens here:
the literal normalized path is probed. -/
def validateFileContains (w : World) (cwd file content : String) : VM ValidationResult := do
  let rel := normalizeRel file
  let filePath := pathJoin cwd rel
  VM.log (Effect.stat filePath)
  match w.statIsFile filePath with
  | Except.error _ => pure { passed := false, message := "Failed to read " ++ file }
  | Except.ok isFile =>
    if isFile = false then
      pure { passed := false, message := "Expected a file but found a folder: " ++ file }
    else do
      VM.log (Effect.readFile filePath)
      match w.readFile filePath with
      | Except.error _ => pure { passed := false, message := "Failed to read " ++ file }
      | Except.ok fileContent =>
        if jsIncludes fileContent content then
          pure { passed := true, message := "File " ++ file ++ " contains expected content" }
        else
          pure { passed := false, message := "File " ++ file ++ " doesn't contain expected content" }

/-- `types/lesson.ts`: the check descriptor (`Validation`), a string kind
tag plus optional fields, exactly the zod schema's shape. -/
structure Validation where
  type : String
  file : Option String := none
  files : Option (List String) := none
  branch : Option String := none
  message : Option String := none
  content : Option String := none
deriving DecidableEq

/-- The V8 `TypeError` message raised when `normalizeRel`/`normalizeGitEntry`
receives `undefined` (a kind's required `file` field was absent and
`validation.file!` passed `undefined` through). -/
def jsUndefinedReplace : String := "Cannot read properties of undefined (reading 'replace')"

/-- The V8 `TypeError` message raised by `for (const f of undefined)` when a
kind's required `files` list is absent. -/
def jsUndefinedNotIterable : String :=
  "undefined is not iterable (cannot read property Symbol(Symbol.iterator))"

/-- `validator.ts` lines 178-226: the `switch` inside `validateStep`'s
`try`.  The TypeScript non-null assertions (`validation.file!`) are erased
at runtime, so a missing required field flows as `undefined` into the
evaluator and throws (or is string-coerced) exactly where the evaluator
first uses it; each `none` branch below reproduces that point faithfully:
`file-staged`/`files-staged` issue their staged-list query first, the
branch evaluators fall through to a `Branch undefined not found` /
`Not on branch undefined` message because `includes(undefined)` and
`=== undefined` are simply false, and `file-contains` catches its own
`TypeError` (and coerces an absent needle to the string `"undefined"`). -/
def validateStepM (w : World) (v : Validation) (cwd : String) : VM ValidationResult :=
  match v.type with
  | "git-initialized" => validateGitInitialized w cwd
  | "file-exists" =>
      match v.file with
      | some f => validateFileExists w cwd f
      | none => VM.throw jsUndefinedReplace
  | "files-exist" =>
      match v.files with
      | some fs => validateFilesExist w cwd fs
      | none => VM.throw jsUndefinedNotIterable
  | "file-staged" =>
      match v.file with
      | some f => validateFileStaged w cwd f
      | none => do
          let staged? ← getStagedEntries w cwd
          match staged? with
          | none => pure { passed := false, message := "Failed to check git status" }
          | some _ => VM.throw jsUndefinedReplace
  | "files-staged" =>
      match v.files with
      | some fs => validateFilesStaged w cwd fs
      | none => do
          let staged? ← getStagedEntries w cwd
          match staged? with
          | none => pure { passed := false, message := "Failed to check git status" }
          | some _ => VM.throw jsUndefinedNotIterable
  | "file-committed" =>
      match v.file with
      | some f => validateFileCommitted w cwd f
      | none => VM.throw jsUndefinedReplace
  | "commit-exists" => validateCommitExists w cwd v.message
  | "branch-exists" =>
      match v.branch with
      | some b => validateBranchExists w cwd b
      | none => do
          let result ← runExec w "git branch" cwd
          if result.success = false then
            pure { passed := false, message := "Failed to list branches" }
          else
            pure { passed := false,
                   message := "Branch undefined not found. Try: git branch undefined" }
  | "branch-active" =>
      match v.branch with
      | some b => validateBranchActive w cwd b
      | none => do
          let result ← runExec w "git branch --show-current" cwd
          if result.success = false then
            pure { passed := false, message := "Failed to check current branch" }
          else
            pure { passed := false,
                   message := "Not on branch undefined. Current: " ++ jsTrim result.stdout ++
                     ". Try: git checkout undefined" }
  | "file-contains" =>
      match v.file, v.content with
      | some f, some c => validateFileContains w cwd f c
      | none, _ => pure { passed := false, message := "Failed to read undefined" }
      | some f, none => validateFileContains w cwd f "undefined"
  | t => pure { passed := false, message := "Unknown validation type: " ++ t }

/-- `validator.ts` lines 178-226: `validateStep` with its enclosing
`try`/`catch`.  Every throw site in the engine throws an `Error`, so the
catch always takes the `error.message` arm.  Returns the verdict together
with the ordered log of issued effects (started empty: state is re-derived
fresh on every call). -/
def validateStep (w : World) (v : Validation) (cwd : String) :
    ValidationResult × List Effect :=
  match validateStepM w v cwd [] with
  | (Except.ok r, fx) => (r, fx)
  | (Except.error e, fx) => ({ passed := false, message := e }, fx)

/-- The verdict component of `validateStep`. -/
def validateStepResult (w : World) (v : Validation) (cwd : String) : ValidationResult :=
  (validateStep w v cwd).1

/-- The read-only git query commands the engine is allowed to issue: the
staged-index listing, the tracked-tree listing, history lookups, and
branch listings. -/
def readOnlyGitCommand (cmd : String) : Bool :=
  cmd == "git diff --cached --name-only -z" ||
  cmd == "git ls-files -z" ||
  cmd == "git log --oneline -1" ||
  cmd == "git branch" ||
  cmd == "git branch --show-current" ||
  jsStartsWith cmd "git log --oneline -- "

/-- An effect is read-only inspection: filesystem listings, stats, reads
and access probes are reads by nature; a subprocess command must be one of
the read-only git queries. -/
def Effect.isReadOnly : Effect → Bool
  | .readdir _ => true
  | .stat _ => true
  | .readFile _ => true
  | .access _ => true
  | .exec cmd _ => readOnlyGitCommand cmd

/-- A computation only ever appends read-only effects: whenever it starts
from a log of read-only effects, it ends with one. -/
def EffOk {α : Type} (m : VM α) : Prop :=
  ∀ fx : List Effect, fx.all Effect.isReadOnly = true → ((m fx).2).all Effect.isReadOnly = true

/-- A subprocess oracle describing a healthy git sandbox: the staged and
tracked listings succeed with the given null-separated entries, a history
lookup for any path succeeds with the given output, and anything else
exits nonzero.  Used to build the concrete worlds of the theorems below. -/
def sampleExeca (staged tracked : List String) (logOut : String) :
    String → String → ExecaOutcome := fun cmd _ =>
  if cmd = "git diff --cached --name-only -z" then
    .resolved (some 0) (joinSep "\x00" staged) ""
  else if cmd = "git ls-files -z" then
    .resolved (some 0) (joinSep "\x00" tracked) ""
  else if jsStartsWith cmd "git log --oneline -- " then
    .resolved (some 0) logOut ""
  else .resolved (some 1) "" ""

/-- A concrete POSIX-style (case-sensitive) working directory `/w` holding
the given entries (those in `dirs` are directories, the rest regular
files), with git answering per `sampleExeca`.  `readFile` succeeds exactly
on the listed entries, every file holding `"hello x world"`. -/
def sampleWorld (entries dirs staged tracked : List String) (logOut : String) : World where
  isWindows := false
  readdir := fun d => if d = "/w" then some entries else none
  statIsFile := fun p =>
    if (entries.filter (fun e => "/w/" ++ e = p)).length > 0 then
      Except.ok ((dirs.filter (fun e => "/w/" ++ e = p)).length == 0)
    else Except.error ("ENOENT: no such file or directory, stat " ++ p)
  readFile := fun p =>
    if (entries.filter (fun e => "/w/" ++ e = p)).length > 0 then
      Except.ok "hello x world"
    else Except.error ("ENOENT: no such file or directory, open " ++ p)
  accessOk := fun p => (entries.filter (fun e => "/w/" ++ e = p)).length > 0
  execa := sampleExeca staged tracked logOut

/-- The list-level core of `jsTrim`: drop JavaScript whitespace from the
front, then from the back. -/
def trimChars (l : List Char) : List Char :=
  List.rdropWhile isJsWs (List.dropWhile isJsWs l)

/-- The nine check kinds the dispatcher recognises (plus `git-initialized`
makes ten cases in the `switch`; the spec counts nine evaluator kinds and
the dispatcher's table has these ten tags). -/
def knownKinds : List String :=
  ["git-initialized", "file-exists", "files-exist", "file-staged", "files-staged",
   "file-committed", "commit-exists", "branch-exists", "branch-active", "file-contains"]

/-- A subprocess oracle for a timed-out (or spawn-failed) command under
`reject: false`: `execa` RESOLVES with the error-result object — exit code
`undefined` and whatever output was captured before the failure — instead
of rejecting the promise. -/
def timeoutExeca : String → String → ExecaOutcome :=
  fun _ _ => ExecaOutcome.resolved none "partial output" ""

/-- A subprocess oracle whose awaited call rejects with a non-`Error`
value (even with `reject: false`, the promise can still reject, e.g. on an
invalid invocation): the `catch` in `executeCommand` handles it. -/
def rejectingExeca : String → String → ExecaOutcome :=
  fun _ _ => ExecaOutcome.rejected false ""

lemma vm_bind_eq {α β : Type} (m : VM α) (f : α → VM β) : m >>= f = VM.bind m f := rfl

lemma vm_pure_eq {α : Type} (a : α) : (pure a : VM α) = VM.pure a := rfl

lemma jsTrim_eq (s : String) : jsTrim s = ⟨trimChars s.data⟩ := rfl

lemma trimChars_idem (l : List Char) : trimChars (trimChars l) = trimChars l := by
  unfold trimChars
  have h1 : List.dropWhile isJsWs (List.rdropWhile isJsWs (List.dropWhile isJsWs l)) =
      List.rdropWhile isJsWs (List.dropWhile isJsWs l) := by
    rw [List.dropWhile_eq_self_iff]
    intro hl
    have hpre := List.rdropWhile_prefix isJsWs (List.dropWhile isJsWs l)
    have hlen : 0 < (List.dropWhile isJsWs l).length :=
      lt_of_lt_of_le hl hpre.length_le
    have hget := List.IsPrefix.getElem hpre hl
    have hnot := List.dropWhile_get_zero_not isJsWs l hlen
    simpa [List.get_eq_getElem, hget] using hnot
  rw [h1, List.rdropWhile_idempotent]

lemma jsTrim_idem (s : String) : jsTrim (jsTrim s) = jsTrim s := by
  rw [jsTrim_eq s, jsTrim_eq]
  exact congrArg String.mk (trimChars_idem s.data)

lemma jsTrim_subset (s : String) : (jsTrim s).data ⊆ s.data := by
  rw [jsTrim_eq]
  intro c hc
  have h1 := ( List.rdropWhile_prefix isJsWs (List.dropWhile isJsWs s.data)).subset hc
  exact (List.dropWhile_suffix isJsWs).subset h1

lemma stripLeadingDotSlash_subset (s : String) :
    (stripLeadingDotSlash s).data ⊆ s.data := by
  unfold stripLeadingDotSlash
  split
  · next rest heq =>
      intro c hc
      rw [heq]
      have := (List.dropWhile_suffix (fun c => c == '/')).subset hc
      exact List.mem_cons_of_mem _ (List.mem_cons_of_mem _ this)
  · exact fun c hc => hc

lemma normalizeRel_subset (s : String) :
    (normalizeRel s).data ⊆ (replaceBackslashes s).data := by
  intro c hc
  exact stripLeadingDotSlash_subset _ (jsTrim_subset _ hc)

lemma no_backslash_replaceBackslashes (s : String) :
    '\\' ∉ (replaceBackslashes s).data := by
  intro h
  simp only [replaceBackslashes, List.mem_map] at h
  obtain ⟨c, _, hc⟩ := h
  by_cases hb : c = '\\' <;> simp [hb] at hc

lemma no_cr_stripCR (s : String) : '\x0d' ∉ (stripCR s).data := by
  intro h
  simp only [stripCR, List.mem_filter] at h
  simp at h

lemma cr_not_introduced (s : String) :
    '\x0d' ∉ s.data → '\x0d' ∉ (replaceBackslashes s).data := by
  intro hs h
  simp only [replaceBackslashes, List.mem_map] at h
  obtain ⟨c, hcmem, hc⟩ := h
  by_cases hb : c = '\\' <;> simp [hb] at hc
  exact hs (hc ▸ hcmem)

lemma pathBasename_no_slash {s : String} (h : '/' ∉ s.data) : pathBasename s = s := by
  unfold pathBasename
  have : s.data.reverse.takeWhile (fun c => c != '/') = s.data.reverse := by
    rw [List.takeWhile_eq_self_iff]
    intro x hx
    simp only [bne_iff_ne, ne_eq]
    intro hx2
    exact h (hx2 ▸ List.mem_reverse.mp hx)
  rw [this, List.reverse_reverse]

lemma pathDirname_no_slash {s : String} (h : '/' ∉ s.data) : pathDirname s = "." := by
  unfold pathDirname
  have : s.data.reverse.dropWhile (fun c => c != '/') = [] := by
    rw [List.dropWhile_eq_nil_iff]
    intro x hx
    simp only [bne_iff_ne, ne_eq]
    intro hx2
    exact h (hx2 ▸ List.mem_reverse.mp hx)
  rw [this]

/-- Claim C3 (counterexample): the normalizer is not idempotent, because
the anchored regex strips only the first leading dot-slash run: `"././x"`
normalizes to `"./x"`, which normalizes again to `"x"`. -/
theorem c3_not_idempotent_counterexample :
    normalizeGitEntry (normalizeGitEntry "././x") ≠ normalizeGitEntry "././x" := by
  decide

/-- Claim C3 (corrected): for every input the normalizer is total (a pure
Lean function), its output holds no backslash (each was replaced by a
forward slash) and no carriage return, and it is trimmed of surrounding
JavaScript whitespace (a `jsTrim` fixed point); it strips only the first
leading `./`-run, as the closed examples show (`".//sub\\a.txt\r "` maps
to `"sub/a.txt"`, but `"././x"` needs two applications to reach `"x"`),
so it is not idempotent. -/
theorem c3_normalizer_properties (x : String) :
    ('\\' ∉ (normalizeGitEntry x).data) ∧
    ('\x0d' ∉ (normalizeGitEntry x).data) ∧
    jsTrim (normalizeGitEntry x) = normalizeGitEntry x ∧
    normalizeGitEntry ".//sub\\a.txt\x0d " = "sub/a.txt" ∧
    normalizeGitEntry (normalizeGitEntry "././x") = "x" := by
  refine ⟨?_, ?_, ?_, by decide, by decide⟩
  · intro h
    exact no_backslash_replaceBackslashes _ (normalizeRel_subset _ h)
  · intro h
    exact cr_not_introduced _ (no_cr_stripCR x) (normalizeRel_subset _ h)
  · exact jsTrim_idem _

/-- Claim C1 (counterexample): with exactly `readme.md` staged,
`file-staged{file:"README.md"}` returns a PASSING verdict (the unique
case-insensitive match is tolerated), not the failed verdict the claim
asserts. -/
theorem c1_staged_case_variant_passes_counterexample :
    validateStepResult (sampleWorld ["readme.md"] [] ["readme.md"] ["readme.md"] "")
      { type := "file-staged", file := some "README.md" } "/w" =
    { passed := true, message := "File README.md is staged (as readme.md)" } := by
  decide

/-- Claim C1 (amended): whenever the staged-entry list does not contain
`README.md` itself and its sole case-insensitive match for `README.md` is
`readme.md`, the check `file-staged{file:"README.md"}` returns a PASSING
verdict whose message names the actual staged casing `readme.md`. -/
theorem c1_file_staged_readme_case_variant (cwd : String) (w : World) (L : List String)
    (hsucc : (executeCommand w.execa "git diff --cached --name-only -z" cwd).success = true)
    (hlist : parseNullList (executeCommand w.execa "git diff --cached --name-only -z" cwd).stdout = L)
    (hnotexact : L.contains "README.md" = false)
    (hhits : L.filter (fun x => jsToLower x == jsToLower "README.md") = ["readme.md"]) :
    validateStepResult w { type := "file-staged", file := some "README.md" } cwd =
      { passed := true, message := "File README.md is staged (as readme.md)" } := by
  unfold validateStepResult validateStep validateStepM
  simp only [validateFileStaged, getStagedEntries, runExec, vm_bind_eq, vm_pure_eq,
    VM.bind, VM.pure, VM.log, hsucc, hlist, if_true]
  have htarget : normalizeGitEntry "README.md" = "README.md" := by decide
  simp only [htarget, hnotexact, uniqueCaseInsensitiveMatch, hhits, Bool.false_eq_true,
    if_false]
  rfl

/-- Claim C1 (witness). -/
theorem c1_file_staged_readme_case_variant_witness :
    validateStepResult (sampleWorld ["readme.md"] [] ["readme.md"] ["readme.md"] "")
      { type := "file-staged", file := some "README.md" } "/w" =
      { passed := true, message := "File README.md is staged (as readme.md)" } :=
  c1_file_staged_readme_case_variant "/w"
    (sampleWorld ["readme.md"] [] ["readme.md"] ["readme.md"] "") ["readme.md"]
    (by decide) (by decide) (by decide) (by decide)

/-- Claim C2 (counterexample): on a case-sensitive filesystem holding only
`readme.md` (whose content does contain the expected substring),
`file-contains{file:"README.md"}` FAILS (`Failed to read README.md`)
while `file-exists{file:"README.md"}` passes in the same world: the
case-tolerance policy does not extend to `file-contains`. -/
theorem c2_file_contains_counterexample :
    validateStepResult (sampleWorld ["readme.md"] [] [] [] "")
      { type := "file-contains", file := some "README.md", content := some "x" } "/w" =
    { passed := false, message := "Failed to read README.md" } ∧
    validateStepResult (sampleWorld ["readme.md"] [] [] [] "")
      { type := "file-exists", file := some "README.md" } "/w" =
    { passed := true, message := "File README.md exists (as readme.md)",
      resolvedFile := some "readme.md" } := by
  constructor <;> decide

/-- Claim C2 (amended): the resolver-based evaluators (`file-exists`,
`files-exist`, `file-staged`, `files-staged`, `file-committed`) tolerate
casing differences, but `file-contains` performs no case-insensitive
resolution: it stats the literal normalized path, and whenever that stat
fails (as it does on a case-sensitive filesystem holding only a case
variant) the check fails with `Failed to read`. -/
theorem c2_file_contains_literal_path (cwd file content e : String) (w : World)
    (hstat : w.statIsFile (pathJoin cwd (normalizeRel file)) = Except.error e) :
    validateStepResult w
      { type := "file-contains", file := some file, content := some content } cwd =
      { passed := false, message := "Failed to read " ++ file } := by
  unfold validateStepResult validateStep validateStepM
  simp only [validateFileContains, vm_bind_eq, vm_pure_eq, VM.bind, VM.pure, VM.log, hstat]

/-- Claim C2 (witness). -/
theorem c2_file_contains_literal_path_witness :
    validateStepResult (sampleWorld ["readme.md"] [] [] [] "")
      { type := "file-contains", file := some "README.md", content := some "x" } "/w" =
      { passed := false, message := "Failed to read README.md" } :=
  c2_file_contains_literal_path "/w" "README.md" "x"
    "ENOENT: no such file or directory, stat /w/README.md"
    (sampleWorld ["readme.md"] [] [] [] "") rfl

/-- Claim C5 (confirmed): for a plain already-normalized filename `f`
without separators and a case variant `fp` that is the only entry of the
target directory and is a regular file, `file-exists{file: f}` passes and
the verdict's resolved path is exactly `fp`. -/
theorem c5_file_exists_case_variant (cwd f fp : String) (w : World)
    (hnorm : normalizeRel f = f)
    (hslash : '/' ∉ f.data)
    (hnorm2 : normalizeRel fp = fp)
    (hlow : jsToLower fp = jsToLower f)
    (hdir : w.readdir (pathDirname (pathJoin cwd f)) = some [fp])
    (hstat : w.statIsFile (pathJoin (pathDirname (pathJoin cwd f)) fp) = Except.ok true) :
    validateStepResult w { type := "file-exists", file := some f } cwd =
      { passed := true, message := "File " ++ f ++ " exists (as " ++ fp ++ ")",
        resolvedFile := some fp } := by
  have hbase : pathBasename f = f := pathBasename_no_slash hslash
  have hdirf : pathDirname f = "." := pathDirname_no_slash hslash
  have hjoin : pathJoin "." fp = fp := by simp [pathJoin]
  unfold validateStepResult validateStep validateStepM
  simp only [validateFileExists, hnorm, hbase, hdirf, hjoin, VM.attempt, getActualFilename,
    getCaseMatches, vm_bind_eq, vm_pure_eq, VM.bind, VM.pure, VM.log, VM.throw, hnorm2]
  rw [hdir]
  simp only [hlow, List.filter, beq_self_eq_true, VM.pure]
  rw [hstat]
  simp only [VM.pure, hjoin, hnorm2, Bool.true_eq_false, if_false]
  rfl

/-- Claim C5 (witness): `README.md` requested, only `readme.md` on disk. -/
theorem c5_file_exists_case_variant_witness :
    validateStepResult (sampleWorld ["readme.md"] [] [] [] "")
      { type := "file-exists", file := some "README.md" } "/w" =
      { passed := true, message := "File README.md exists (as readme.md)",
        resolvedFile := some "readme.md" } :=
  c5_file_exists_case_variant "/w" "README.md" "readme.md"
    (sampleWorld ["readme.md"] [] [] [] "")
    (by decide) (by decide) (by decide) (by decide) (by decide) rfl

lemma validateStepM_unknown (w : World) (v : Validation) (cwd : String)
    (hunknown : knownKinds.contains v.type = false) :
    validateStepM w v cwd =
      VM.pure { passed := false, message := "Unknown validation type: " ++ v.type } := by
  unfold validateStepM
  split
  all_goals first
    | rfl
    | (rename_i heq; rw [heq] at hunknown; simp [knownKinds] at hunknown)

/-- Claim C4 (counterexample): a `file-exists` descriptor without its
required `file` field yields a failed verdict, but the verdict's message
is the caught runtime `TypeError` text, which does not identify the
problem as an unknown or malformed check (neither word occurs in it). -/
theorem c4_missing_field_message_counterexample :
    validateStepResult (sampleWorld [] [] [] [] "") { type := "file-exists" } "/w" =
      { passed := false, message := "Cannot read properties of undefined (reading 'replace')" } ∧
    jsIncludes (jsToLower jsUndefinedReplace) "unknown" = false ∧
    jsIncludes (jsToLower jsUndefinedReplace) "malformed" = false := by
  refine ⟨rfl, by decide, by decide⟩

/-- Claim C4 (amended): `validateStep` never raises to the caller — the
embedding is a total function whose catch-all converts every thrown error
into a failed verdict.  A descriptor whose kind tag is unknown yields a
failed verdict naming the unknown kind.  A known kind missing a required
field also fails closed, but its verdict carries the caught `TypeError`
message (`undefined` flowed into the evaluator), not an
`unknown/malformed check` label. -/
theorem c4_dispatcher_never_raises :
    (∀ (w : World) (v : Validation) (cwd : String),
      knownKinds.contains v.type = false →
      validateStepResult w v cwd =
        { passed := false, message := "Unknown validation type: " ++ v.type }) ∧
    (∀ (w : World) (cwd : String),
      validateStepResult w { type := "file-exists" } cwd =
        { passed := false, message := jsUndefinedReplace }) := by
  constructor
  · intro w v cwd hunknown
    unfold validateStepResult validateStep
    rw [validateStepM_unknown w v cwd hunknown]
    rfl
  · intro w cwd
    rfl

/-- Claim C4 (witness). -/
theorem c4_dispatcher_never_raises_witness :
    validateStepResult (sampleWorld [] [] [] [] "") { type := "frobnicate" } "/w" =
      { passed := false, message := "Unknown validation type: frobnicate" } :=
  c4_dispatcher_never_raises.1 (sampleWorld [] [] [] [] "")
    { type := "frobnicate" } "/w" (by decide)

/-- Claim C6 (confirmed): the case-insensitive resolver behind
`file-exists` — an unreadable directory and zero case matches both fail as
`not found`; two or more colliding entries fail with a message naming all
of them; exactly one match makes `getActualFilename` resolve to that entry
regardless of its casing. -/
theorem c6_resolver_ambiguity_and_not_found :
    (∀ (cwd f : String) (w : World), normalizeRel f = f → '/' ∉ f.data →
      w.readdir (pathDirname (pathJoin cwd f)) = none →
      validateStepResult w { type := "file-exists", file := some f } cwd =
        { passed := false, message := "File " ++ f ++ " not found" }) ∧
    (∀ (cwd f : String) (w : World) (es : List String), normalizeRel f = f → '/' ∉ f.data →
      w.readdir (pathDirname (pathJoin cwd f)) = some es →
      es.filter (fun e => jsToLower e == jsToLower f) = [] →
      validateStepResult w { type := "file-exists", file := some f } cwd =
        { passed := false, message := "File " ++ f ++ " not found" }) ∧
    (∀ (cwd f : String) (w : World) (es : List String) (a b : String) (rest : List String),
      normalizeRel f = f → '/' ∉ f.data →
      w.readdir (pathDirname (pathJoin cwd f)) = some es →
      es.filter (fun e => jsToLower e == jsToLower f) = a :: b :: rest →
      validateStepResult w { type := "file-exists", file := some f } cwd =
        { passed := false,
          message := "Multiple entries match '" ++ f ++ "' with different casing: " ++
            joinSep ", " (a :: b :: rest) ++ ". Keep only one." }) ∧
    (∀ (w : World) (d t : String) (es : List String) (a : String),
      w.readdir d = some es →
      es.filter (fun e => jsToLower e == jsToLower t) = [a] →
      getActualFilename w d t [] = (Except.ok (some a), [Effect.readdir d])) := by
  refine ⟨?_, ?_, ?_, ?_⟩
  · intro cwd f w hnorm hslash hdir
    have hbase : pathBasename f = f := pathBasename_no_slash hslash
    unfold validateStepResult validateStep validateStepM
    simp only [validateFileExists, hnorm, hbase, VM.attempt, getActualFilename,
      getCaseMatches, vm_bind_eq, vm_pure_eq, VM.bind, VM.pure, VM.log, VM.throw]
    rw [hdir]
    rfl
  · intro cwd f w es hnorm hslash hdir hfilter
    have hbase : pathBasename f = f := pathBasename_no_slash hslash
    unfold validateStepResult validateStep validateStepM
    simp only [validateFileExists, hnorm, hbase, VM.attempt, getActualFilename,
      getCaseMatches, vm_bind_eq, vm_pure_eq, VM.bind, VM.pure, VM.log, VM.throw]
    rw [hdir]
    simp only [hfilter, VM.pure]
  · intro cwd f w es a b rest hnorm hslash hdir hfilter
    have hbase : pathBasename f = f := pathBasename_no_slash hslash
    unfold validateStepResult validateStep validateStepM
    simp only [validateFileExists, hnorm, hbase, VM.attempt, getActualFilename,
      getCaseMatches, vm_bind_eq, vm_pure_eq, VM.bind, VM.pure, VM.log, VM.throw]
    rw [hdir]
    simp only [hfilter, VM.pure, VM.throw]
  · intro w d t es a hdir hfilter
    unfold getActualFilename getCaseMatches
    simp only [vm_bind_eq, vm_pure_eq, VM.bind, VM.pure, VM.log]
    rw [hdir]
    simp only [hfilter, VM.pure, List.nil_append]

/-- Claim C6 (witness): the four resolver cases at concrete worlds. -/
theorem c6_resolver_ambiguity_and_not_found_witness :
    validateStepResult (sampleWorld [] [] [] [] "")
      { type := "file-exists", file := some "f.txt" } "/x" =
      { passed := false, message := "File f.txt not found" } ∧
    validateStepResult (sampleWorld [] [] [] [] "")
      { type := "file-exists", file := some "f.txt" } "/w" =
      { passed := false, message := "File f.txt not found" } ∧
    validateStepResult (sampleWorld ["F.txt", "f.txt"] [] [] [] "")
      { type := "file-exists", file := some "f.txt" } "/w" =
      { passed := false,
        message := "Multiple entries match 'f.txt' with different casing: F.txt, f.txt. Keep only one." } ∧
    getActualFilename (sampleWorld ["readme.md"] [] [] [] "") "/w" "README.md" [] =
      (Except.ok (some "readme.md"), [Effect.readdir "/w"]) :=
  ⟨c6_resolver_ambiguity_and_not_found.1 "/x" "f.txt" (sampleWorld [] [] [] [] "")
      (by decide) (by decide) rfl,
   c6_resolver_ambiguity_and_not_found.2.1 "/w" "f.txt" (sampleWorld [] [] [] [] "") []
      (by decide) (by decide) rfl (by decide),
   c6_resolver_ambiguity_and_not_found.2.2.1 "/w" "f.txt"
      (sampleWorld ["F.txt", "f.txt"] [] [] [] "") ["F.txt", "f.txt"] "F.txt" "f.txt" []
      (by decide) (by decide) rfl (by decide),
   c6_resolver_ambiguity_and_not_found.2.2.2 (sampleWorld ["readme.md"] [] [] [] "")
      "/w" "README.md" ["readme.md"] "readme.md" rfl (by decide)⟩

/-- Claim C8 (counterexample): a world where the entry named `.git` is a
regular file (its stat reports a non-directory) but is accessible: the
check still passes, because the source only probes `fs.access` and never
inspects the entry's kind.  This refutes `it does not pass when the entry
named .git is not a directory`. -/
theorem c8_git_file_counterexample :
    validateStepResult (sampleWorld [".git"] [] [] [] "") { type := "git-initialized" } "/w" =
      { passed := true, message := "Git repository initialized successfully" } ∧
    (sampleWorld [".git"] [] [] [] "").statIsFile "/w/.git" = Except.ok true := by
  exact ⟨by decide, rfl⟩

/-- Claim C8 (amended): `git-initialized` passes exactly when the `.git`
path under the working directory is accessible (`fs.access` succeeds),
regardless of whether that entry is a directory; otherwise it fails with
the `not found, try git init` message. -/
theorem c8_git_initialized_access_only (w : World) (cwd : String) :
    validateStepResult w { type := "git-initialized" } cwd =
      (if w.accessOk (pathJoin cwd ".git") then
        { passed := true, message := "Git repository initialized successfully" }
      else
        { passed := false, message := "Git repository not found. Try: git init" }) := by
  unfold validateStepResult validateStep validateStepM validateGitInitialized
  by_cases h : w.accessOk (pathJoin cwd ".git") <;>
    simp only [h, vm_bind_eq, vm_pure_eq, VM.bind, VM.pure, VM.log, if_true, if_false,
      Bool.false_eq_true]

/-- Claim C10 (counterexample): `executor.ts` passes `reject: false` to
`execa`, so a timed-out or spawn-failed command RESOLVES with the
error-result object — exit code `undefined` and the output captured so
far — and `executeCommand` takes the `try` path: `success = false` with
that stdout passed through and NO error field.  This refutes the claim's
`empty stdout and stderr and a non-empty error message` for the
spawn-failure/timeout cases. -/
theorem c10_timeout_resolves_counterexample :
    executeCommand timeoutExeca "sleep 100" "/w" =
      { success := false, stdout := "partial output", stderr := "", error := none } ∧
    (executeCommand timeoutExeca "sleep 100" "/w").stdout ≠ "" ∧
    (executeCommand timeoutExeca "sleep 100" "/w").error = none := by
  refine ⟨by decide, by decide, rfl⟩

/-- Claim C10 (amended): `executeCommand` is a total function of the
`execa` oracle (it never throws by construction).  When the awaited call
resolves — which, under `reject: false`, includes timeouts and spawn
failures — the captured output is passed through with no `error` field
and success holds exactly when the exit code is zero; in particular a
resolution with an `undefined` exit code (the timeout/spawn-failure
shape) yields `success = false` with the partial output passed through.
Only an actual rejection of the awaited call takes the `catch` path,
yielding `success = false`, empty output, and an error message (the
thrown `Error`'s message, or `Unknown error` for a non-`Error` value). -/
theorem c10_execute_command_spec (execa : String → String → ExecaOutcome)
    (command cwd : String) :
    (∀ (code : Option Int) (out err : String),
      execa command cwd = ExecaOutcome.resolved code out err →
      executeCommand execa command cwd =
        { success := code == some 0, stdout := out, stderr := err, error := none } ∧
      ((executeCommand execa command cwd).success = true ↔ code = some 0)) ∧
    (∀ (out err : String),
      execa command cwd = ExecaOutcome.resolved none out err →
      executeCommand execa command cwd =
        { success := false, stdout := out, stderr := err, error := none }) ∧
    (∀ (isErr : Bool) (msg : String),
      execa command cwd = ExecaOutcome.rejected isErr msg →
      executeCommand execa command cwd =
        { success := false, stdout := "", stderr := "",
          error := some (if isErr then msg else "Unknown error") }) := by
  refine ⟨?_, ?_, ?_⟩
  · intro code out err h
    unfold executeCommand
    rw [h]
    exact ⟨rfl, by simp⟩
  · intro out err h
    unfold executeCommand
    rw [h]
    rfl
  · intro isErr msg h
    unfold executeCommand
    rw [h]

/-- Claim C10 (witness): a resolved nonzero exit, a resolved timeout
(undefined exit code), and a rejected call. -/
theorem c10_execute_command_spec_witness :
    (executeCommand (sampleExeca [] [] "") "git status" "/w" =
      { success := ((some 1 : Option Int) == some 0), stdout := "", stderr := "",
        error := none } ∧
     ((executeCommand (sampleExeca [] [] "") "git status" "/w").success = true ↔
       (some 1 : Option Int) = some 0)) ∧
    executeCommand timeoutExeca "sleep 100" "/w" =
      { success := false, stdout := "partial output", stderr := "", error := none } ∧
    executeCommand rejectingExeca "git status" "/w" =
      { success := false, stdout := "", stderr := "",
        error := some (if false then "" else "Unknown error") } :=
  ⟨(c10_execute_command_spec (sampleExeca [] [] "") "git status" "/w").1
      (some 1) "" "" rfl,
   (c10_execute_command_spec timeoutExeca "sleep 100" "/w").2.1
      "partial output" "" rfl,
   (c10_execute_command_spec rejectingExeca "git status" "/w").2.2
      false "" rfl⟩

/-- Claim C7 (confirmed): the three-stage ordering of `file-committed` for
a file resolving on disk to the single case-match `a` (a regular file),
with the git-log path reconciled against the tracked-entry list:
(1) when the tracked list holds `a` and `git log` for it is non-empty,
the check passes; (2) when the log probe yields nothing but `a` is in the
staged list, it fails with the `commit it` message; (3) when `a` is
neither tracked, nor logged, nor staged, it fails with the `stage it`
message; (4) when tracked-list reconciliation is ambiguous (two or more
case-insensitive matches), it fails with the ambiguity message — before
issuing any `git log` probe — rather than guessing. -/
theorem c7_file_committed_three_stages :
    (∀ (cwd f a : String) (w : World),
      normalizeRel f = f → '/' ∉ f.data → normalizeRel a = a →
      jsToLower a = jsToLower f →
      w.readdir (pathDirname (pathJoin cwd f)) = some [a] →
      w.statIsFile (pathJoin (pathDirname (pathJoin cwd f)) a) = Except.ok true →
      (executeCommand w.execa "git ls-files -z" cwd).success = true →
      (parseNullList (executeCommand w.execa "git ls-files -z" cwd).stdout).contains a = true →
      (executeCommand w.execa ("git log --oneline -- \"" ++ a ++ "\"") cwd).success = true →
      (jsTrim (executeCommand w.execa ("git log --oneline -- \"" ++ a ++ "\"") cwd).stdout != "") = true →
      validateStepResult w { type := "file-committed", file := some f } cwd =
        { passed := true, message := "File " ++ f ++ " has been committed",
          resolvedFile := some a }) ∧
    (∀ (cwd f a : String) (w : World) (T S : List String),
      normalizeRel f = f → '/' ∉ f.data → normalizeRel a = a → '/' ∉ a.data →
      jsToLower a = jsToLower f →
      w.readdir (pathDirname (pathJoin cwd f)) = some [a] →
      w.statIsFile (pathJoin (pathDirname (pathJoin cwd f)) a) = Except.ok true →
      (executeCommand w.execa "git ls-files -z" cwd).success = true →
      parseNullList (executeCommand w.execa "git ls-files -z" cwd).stdout = T →
      T.contains a = true →
      ((executeCommand w.execa ("git log --oneline -- \"" ++ a ++ "\"") cwd).success &&
        jsTrim (executeCommand w.execa ("git log --oneline -- \"" ++ a ++ "\"") cwd).stdout != "") = false →
      (executeCommand w.execa "git diff --cached --name-only -z" cwd).success = true →
      parseNullList (executeCommand w.execa "git diff --cached --name-only -z" cwd).stdout = S →
      S.contains a = true →
      validateStepResult w { type := "file-committed", file := some f } cwd =
        { passed := false,
          message := "Progress: file staged. Next: commit it. Run: git commit -m \"add " ++ a ++ "\"",
          resolvedFile := some a }) ∧
    (∀ (cwd f a : String) (w : World) (T S : List String),
      normalizeRel f = f → '/' ∉ f.data → normalizeRel a = a →
      jsToLower a = jsToLower f →
      w.readdir (pathDirname (pathJoin cwd f)) = some [a] →
      w.statIsFile (pathJoin (pathDirname (pathJoin cwd f)) a) = Except.ok true →
      (executeCommand w.execa "git ls-files -z" cwd).success = true →
      parseNullList (executeCommand w.execa "git ls-files -z" cwd).stdout = T →
      T.contains a = false →
      T.filter (fun x => jsToLower x == jsToLower a) = [] →
      ((executeCommand w.execa ("git log --oneline -- \"" ++ a ++ "\"") cwd).success &&
        jsTrim (executeCommand w.execa ("git log --oneline -- \"" ++ a ++ "\"") cwd).stdout != "") = false →
      (executeCommand w.execa "git diff --cached --name-only -z" cwd).success = true →
      parseNullList (executeCommand w.execa "git diff --cached --name-only -z" cwd).stdout = S →
      S.contains a = false →
      S.filter (fun x => jsToLower x == jsToLower a) = [] →
      validateStepResult w { type := "file-committed", file := some f } cwd =
        { passed := false,
          message := "Progress: file created. Next: stage it. Run: git add " ++ a,
          resolvedFile := some a }) ∧
    (∀ (cwd f a : String) (w : World) (T : List String) (b c : String) (rest : List String),
      normalizeRel f = f → '/' ∉ f.data → normalizeRel a = a →
      jsToLower a = jsToLower f →
      w.readdir (pathDirname (pathJoin cwd f)) = some [a] →
      w.statIsFile (pathJoin (pathDirname (pathJoin cwd f)) a) = Except.ok true →
      (executeCommand w.execa "git ls-files -z" cwd).success = true →
      parseNullList (executeCommand w.execa "git ls-files -z" cwd).stdout = T →
      T.contains a = false →
      T.filter (fun x => jsToLower x == jsToLower a) = b :: c :: rest →
      validateStepResult w { type := "file-committed", file := some f } cwd =
        { passed := false,
          message := "Multiple tracked files match '" ++ f ++ "' ignoring case. Keep only one." }) := by
  refine ⟨?_, ?_, ?_, ?_⟩
  · intro cwd f a w hnorm hslash hnorma hlow hdir hstat htsucc hmem hlogsucc hlogne
    have hbase : pathBasename f = f := pathBasename_no_slash hslash
    have hdirf : pathDirname f = "." := pathDirname_no_slash hslash
    have hjoin : pathJoin "." a = a := by simp [pathJoin]
    unfold validateStepResult validateStep validateStepM
    simp only [validateFileCommitted, hnorm, hbase, hdirf, hjoin, hnorma, VM.attempt,
      getActualFilename, getCaseMatches, getTrackedEntries, runExec, vm_bind_eq, vm_pure_eq,
      VM.bind, VM.pure, VM.log, VM.throw]
    rw [hdir]
    simp only [hlow, List.filter, beq_self_eq_true, VM.pure]
    rw [hstat]
    simp only [Bool.true_eq_false, if_false, hjoin, hnorma, vm_bind_eq, vm_pure_eq,
      VM.bind, VM.pure, VM.log, htsucc, if_true, hmem]
    simp only [validateFileCommittedGitCheck, runExec, vm_bind_eq, vm_pure_eq, VM.bind,
      VM.pure, VM.log, hlogsucc, hlogne, Bool.and_self, if_true]
  · intro cwd f a w T S hnorm hslash hnorma hslasha hlow hdir hstat htsucc htlist hmem
      hlogfail hssucc hslist hsmem
    have hbase : pathBasename f = f := pathBasename_no_slash hslash
    have hbasea : pathBasename a = a := pathBasename_no_slash hslasha
    have hdirf : pathDirname f = "." := pathDirname_no_slash hslash
    have hjoin : pathJoin "." a = a := by simp [pathJoin]
    unfold validateStepResult validateStep validateStepM
    simp only [validateFileCommitted, hnorm, hbase, hdirf, hjoin, hnorma, VM.attempt,
      getActualFilename, getCaseMatches, getTrackedEntries, runExec, vm_bind_eq, vm_pure_eq,
      VM.bind, VM.pure, VM.log, VM.throw]
    rw [hdir]
    simp only [hlow, List.filter, beq_self_eq_true, VM.pure]
    rw [hstat]
    simp only [Bool.true_eq_false, if_false, hjoin, hnorma, vm_bind_eq, vm_pure_eq,
      VM.bind, VM.pure, VM.log, htsucc, if_true, htlist, hmem]
    simp only [validateFileCommittedGitCheck, getStagedEntries, runExec, vm_bind_eq,
      vm_pure_eq, VM.bind, VM.pure, VM.log, hlogfail, Bool.false_eq_true, if_false,
      hssucc, if_true, hslist, hsmem, hbasea]
  · intro cwd f a w T S hnorm hslash hnorma hlow hdir hstat htsucc htlist hmem hfiltT
      hlogfail hssucc hslist hsmem hfiltS
    have hbase : pathBasename f = f := pathBasename_no_slash hslash
    have hdirf : pathDirname f = "." := pathDirname_no_slash hslash
    have hjoin : pathJoin "." a = a := by simp [pathJoin]
    unfold validateStepResult validateStep validateStepM
    simp only [validateFileCommitted, hnorm, hbase, hdirf, hjoin, hnorma, VM.attempt,
      getActualFilename, getCaseMatches, getTrackedEntries, runExec, vm_bind_eq, vm_pure_eq,
      VM.bind, VM.pure, VM.log, VM.throw]
    rw [hdir]
    simp only [hlow, List.filter, beq_self_eq_true, VM.pure]
    rw [hstat]
    simp only [Bool.true_eq_false, if_false, hjoin, hnorma, vm_bind_eq, vm_pure_eq,
      VM.bind, VM.pure, VM.log, htsucc, if_true, htlist, hmem,
      uniqueCaseInsensitiveMatch, hfiltT]
    simp only [validateFileCommittedGitCheck, getStagedEntries, runExec, vm_bind_eq,
      vm_pure_eq, VM.bind, VM.pure, VM.log, hlogfail, Bool.false_eq_true, if_false,
      hssucc, if_true, hslist, hsmem, uniqueCaseInsensitiveMatch, hfiltS]
  · intro cwd f a w T b c rest hnorm hslash hnorma hlow hdir hstat htsucc htlist hmem hfiltT
    have hbase : pathBasename f = f := pathBasename_no_slash hslash
    have hdirf : pathDirname f = "." := pathDirname_no_slash hslash
    have hjoin : pathJoin "." a = a := by simp [pathJoin]
    unfold validateStepResult validateStep validateStepM
    simp only [validateFileCommitted, hnorm, hbase, hdirf, hjoin, hnorma, VM.attempt,
      getActualFilename, getCaseMatches, getTrackedEntries, runExec, vm_bind_eq, vm_pure_eq,
      VM.bind, VM.pure, VM.log, VM.throw]
    rw [hdir]
    simp only [hlow, List.filter, beq_self_eq_true, VM.pure]
    rw [hstat]
    simp only [Bool.true_eq_false, if_false, hjoin, hnorma, vm_bind_eq, vm_pure_eq,
      VM.bind, VM.pure, VM.log, htsucc, if_true, htlist, hmem,
      uniqueCaseInsensitiveMatch, hfiltT, Bool.false_eq_true]

/-- Claim C7 (witness): the four stages at concrete worlds over the file
`notes.txt`. -/
theorem c7_file_committed_three_stages_witness :
    validateStepResult (sampleWorld ["notes.txt"] [] [] ["notes.txt"] "abc123 add notes\n")
      { type := "file-committed", file := some "notes.txt" } "/w" =
      { passed := true, message := "File notes.txt has been committed",
        resolvedFile := some "notes.txt" } ∧
    validateStepResult (sampleWorld ["notes.txt"] [] ["notes.txt"] ["notes.txt"] "")
      { type := "file-committed", file := some "notes.txt" } "/w" =
      { passed := false,
        message := "Progress: file staged. Next: commit it. Run: git commit -m \"add notes.txt\"",
        resolvedFile := some "notes.txt" } ∧
    validateStepResult (sampleWorld ["notes.txt"] [] [] [] "")
      { type := "file-committed", file := some "notes.txt" } "/w" =
      { passed := false,
        message := "Progress: file created. Next: stage it. Run: git add notes.txt",
        resolvedFile := some "notes.txt" } ∧
    validateStepResult (sampleWorld ["notes.txt"] [] [] ["Notes.txt", "NOTES.txt"] "x\n")
      { type := "file-committed", file := some "notes.txt" } "/w" =
      { passed := false,
        message := "Multiple tracked files match 'notes.txt' ignoring case. Keep only one." } :=
  ⟨c7_file_committed_three_stages.1 "/w" "notes.txt" "notes.txt"
      (sampleWorld ["notes.txt"] [] [] ["notes.txt"] "abc123 add notes\n")
      (by decide) (by decide) (by decide) (by decide) rfl rfl
      (by decide) (by decide) (by decide) (by decide),
   c7_file_committed_three_stages.2.1 "/w" "notes.txt" "notes.txt"
      (sampleWorld ["notes.txt"] [] ["notes.txt"] ["notes.txt"] "")
      ["notes.txt"] ["notes.txt"]
      (by decide) (by decide) (by decide) (by decide) (by decide) rfl rfl
      (by decide) (by decide) (by decide) (by decide) (by decide) (by decide) (by decide),
   c7_file_committed_three_stages.2.2.1 "/w" "notes.txt" "notes.txt"
      (sampleWorld ["notes.txt"] [] [] [] "") [] []
      (by decide) (by decide) (by decide) (by decide) rfl rfl
      (by decide) (by decide) (by decide) (by decide) (by decide) (by decide)
      (by decide) (by decide) (by decide),
   c7_file_committed_three_stages.2.2.2 "/w" "notes.txt" "notes.txt"
      (sampleWorld ["notes.txt"] [] [] ["Notes.txt", "NOTES.txt"] "x\n")
      ["Notes.txt", "NOTES.txt"] "Notes.txt" "NOTES.txt" []
      (by decide) (by decide) (by decide) (by decide) rfl rfl
      (by decide) (by decide) (by decide) (by decide)⟩


lemma effOk_vmPure {α : Type} (a : α) : EffOk (VM.pure a) := by
  intro fx hfx
  exact hfx

lemma effOk_pure {α : Type} (a : α) : EffOk (pure a : VM α) :=
  effOk_vmPure a

lemma effOk_throw {α : Type} (e : String) : EffOk (VM.throw e : VM α) := by
  intro fx hfx
  exact hfx

lemma effOk_log (e : Effect) (he : e.isReadOnly = true) : EffOk (VM.log e) := by
  intro fx hfx
  simp [VM.log, List.all_append, hfx, he]

lemma effOk_log_readdir (d : String) : EffOk (VM.log (Effect.readdir d)) :=
  effOk_log (Effect.readdir d) rfl

lemma effOk_log_stat (p : String) : EffOk (VM.log (Effect.stat p)) :=
  effOk_log (Effect.stat p) rfl

lemma effOk_log_readFile (p : String) : EffOk (VM.log (Effect.readFile p)) :=
  effOk_log (Effect.readFile p) rfl

lemma effOk_log_access (p : String) : EffOk (VM.log (Effect.access p)) :=
  effOk_log (Effect.access p) rfl

lemma effOk_bind {α β : Type} {m : VM α} {f : α → VM β}
    (hm : EffOk m) (hf : ∀ a, EffOk (f a)) : EffOk (m >>= f) := by
  intro fx hfx
  have h2 := hm fx hfx
  rw [vm_bind_eq]
  unfold VM.bind
  rcases hh : m fx with ⟨res, fx2⟩
  rw [hh] at h2
  cases res with
  | ok a => exact hf a fx2 h2
  | error e => exact h2

lemma effOk_attempt {α : Type} {m : VM α} (hm : EffOk m) : EffOk (VM.attempt m) := by
  intro fx hfx
  have h2 := hm fx hfx
  unfold VM.attempt
  rcases hh : m fx with ⟨res, fx2⟩
  rw [hh] at h2
  cases res with
  | ok a => exact h2
  | error e => exact h2

lemma effOk_runExec (w : World) {cmd : String} (cwd : String)
    (h : readOnlyGitCommand cmd = true) : EffOk (runExec w cmd cwd) := by
  unfold runExec
  exact effOk_bind (effOk_log (Effect.exec cmd cwd) h) (fun _ => effOk_pure _)

lemma effOk_getCaseMatches (w : World) (d t : String) : EffOk (getCaseMatches w d t) := by
  unfold getCaseMatches
  apply effOk_bind (effOk_log_readdir d)
  intro _
  cases w.readdir d <;> exact effOk_pure _

lemma effOk_getActualFilename (w : World) (d t : String) :
    EffOk (getActualFilename w d t) := by
  unfold getActualFilename
  apply effOk_bind (effOk_getCaseMatches w d t)
  intro ms
  match ms with
  | [] => exact effOk_pure _
  | [m] => exact effOk_pure _
  | _ :: _ :: _ => exact effOk_throw _

lemma effOk_getStagedEntries (w : World) (cwd : String) :
    EffOk (getStagedEntries w cwd) := by
  unfold getStagedEntries
  apply effOk_bind (effOk_runExec w cwd (by decide))
  intro res
  by_cases h : res.success = true <;> simp [h] <;> exact effOk_pure _

lemma readOnly_logCmd (t : String) :
    readOnlyGitCommand ("git log --oneline -- \"" ++ t ++ "\"") = true := by
  unfold readOnlyGitCommand jsStartsWith
  have hdata : ("git log --oneline -- \"" ++ t ++ "\"").data =
      "git log --oneline -- ".data ++ ('"' :: (t.data ++ "\"".data)) := by
    simp [String.data_append]
  rw [hdata]
  have hsw : ∀ (p r : List Char), listStartsWith p (p ++ r) = true := by
    intro p
    induction p with
    | nil => intro r; rfl
    | cons c cs ih => intro r; simp [listStartsWith, ih]
  rw [hsw]
  simp

lemma effOk_getTrackedEntries (w : World) (cwd : String) :
    EffOk (getTrackedEntries w cwd) := by
  unfold getTrackedEntries
  apply effOk_bind (effOk_runExec w cwd (by decide))
  intro res
  by_cases h : res.success = true <;> simp [h] <;> exact effOk_pure _

lemma effOk_validateGitInitialized (w : World) (cwd : String) :
    EffOk (validateGitInitialized w cwd) := by
  unfold validateGitInitialized
  apply effOk_bind (effOk_log_access _)
  intro _
  by_cases h : w.accessOk (pathJoin cwd ".git") = true <;> simp [h] <;> exact effOk_pure _

lemma effOk_validateFileExists (w : World) (cwd file : String) :
    EffOk (validateFileExists w cwd file) := by
  unfold validateFileExists
  apply effOk_bind (effOk_attempt (effOk_getActualFilename w _ _))
  intro r
  match r with
  | Except.error e => exact effOk_pure _
  | Except.ok none => exact effOk_pure _
  | Except.ok (some actualBase) =>
    apply effOk_bind (effOk_log_stat _)
    intro _
    match w.statIsFile (pathJoin (pathDirname (pathJoin cwd (normalizeRel file))) actualBase) with
    | Except.error e => exact effOk_throw _
    | Except.ok isFile =>
      by_cases h : isFile = false <;> simp [h] <;> exact effOk_pure _

lemma effOk_validateFilesExistGo (w : World) (cwd : String) (files : List String) :
    ∀ (missing : List String) (wrongType wrongCase : List (String × String)),
    EffOk (validateFilesExistGo w cwd files missing wrongType wrongCase) := by
  induction files with
  | nil =>
    intro missing wrongType wrongCase
    unfold validateFilesExistGo
    split_ifs <;> exact effOk_pure _
  | cons file rest ih =>
    intro missing wrongType wrongCase
    unfold validateFilesExistGo
    apply effOk_bind (effOk_attempt (effOk_getActualFilename w _ _))
    intro r
    match r with
    | Except.error e => exact effOk_pure _
    | Except.ok none => exact ih _ _ _
    | Except.ok (some actualBase) =>
      apply effOk_bind (effOk_log_stat _)
      intro _
      split
      · exact effOk_throw _
      · split_ifs <;> exact ih _ _ _

lemma effOk_validateFilesExist (w : World) (cwd : String) (files : List String) :
    EffOk (validateFilesExist w cwd files) :=
  effOk_validateFilesExistGo w cwd files [] [] []

lemma effOk_validateFileStaged (w : World) (cwd file : String) :
    EffOk (validateFileStaged w cwd file) := by
  unfold validateFileStaged
  apply effOk_bind (effOk_getStagedEntries w cwd)
  intro staged?
  split
  · exact effOk_pure _
  · dsimp only
    repeat first
      | exact effOk_pure _
      | exact effOk_throw _
      | split
      | dsimp only

lemma effOk_validateFilesStagedGo (stagedFiles : List String) (files : List String) :
    ∀ (unstaged : List String), EffOk (validateFilesStagedGo stagedFiles files unstaged) := by
  induction files with
  | nil =>
    intro unstaged
    unfold validateFilesStagedGo
    split_ifs <;> exact effOk_pure _
  | cons f rest ih =>
    intro unstaged
    unfold validateFilesStagedGo
    dsimp only
    repeat first
      | exact effOk_pure _
      | exact ih _
      | split
      | dsimp only

lemma effOk_validateFilesStaged (w : World) (cwd : String) (files : List String) :
    EffOk (validateFilesStaged w cwd files) := by
  unfold validateFilesStaged
  apply effOk_bind (effOk_getStagedEntries w cwd)
  intro staged?
  match staged? with
  | none => exact effOk_pure _
  | some stagedFiles => exact effOk_validateFilesStagedGo stagedFiles files []

lemma effOk_validateFileCommittedGitCheck (w : World) (cwd file actualBase commitTarget : String) :
    EffOk (validateFileCommittedGitCheck w cwd file actualBase commitTarget) := by
  unfold validateFileCommittedGitCheck
  apply effOk_bind (effOk_runExec w cwd (readOnly_logCmd commitTarget))
  intro logRes
  split
  · exact effOk_pure _
  · apply effOk_bind (effOk_getStagedEntries w cwd)
    intro staged?
    split
    · exact effOk_pure _
    · dsimp only
      repeat first
        | exact effOk_pure _
        | exact effOk_throw _
        | split
        | dsimp only

lemma effOk_validateFileCommitted (w : World) (cwd file : String) :
    EffOk (validateFileCommitted w cwd file) := by
  unfold validateFileCommitted
  apply effOk_bind (effOk_attempt (effOk_getActualFilename w _ _))
  intro r
  split
  · exact effOk_pure _
  · exact effOk_pure _
  · apply effOk_bind (effOk_log_stat _)
    intro _
    split
    · exact effOk_throw _
    · split
      · exact effOk_pure _
      · dsimp only
        apply effOk_bind (effOk_getTrackedEntries w cwd)
        intro tracked?
        split
        · exact effOk_validateFileCommittedGitCheck w cwd file _ _
        · repeat first
            | exact effOk_validateFileCommittedGitCheck w cwd file _ _
            | exact effOk_pure _
            | split
            | dsimp only

lemma effOk_validateCommitExists (w : World) (cwd : String) (message? : Option String) :
    EffOk (validateCommitExists w cwd message?) := by
  unfold validateCommitExists
  apply effOk_bind (effOk_runExec w cwd (by decide))
  intro result
  repeat first
    | exact effOk_pure _
    | split
    | dsimp only

lemma effOk_validateBranchExists (w : World) (cwd branch : String) :
    EffOk (validateBranchExists w cwd branch) := by
  unfold validateBranchExists
  apply effOk_bind (effOk_runExec w cwd (by decide))
  intro result
  repeat first
    | exact effOk_pure _
    | split
    | dsimp only

lemma effOk_validateBranchActive (w : World) (cwd branch : String) :
    EffOk (validateBranchActive w cwd branch) := by
  unfold validateBranchActive
  apply effOk_bind (effOk_runExec w cwd (by decide))
  intro result
  repeat first
    | exact effOk_pure _
    | split
    | dsimp only

lemma effOk_validateFileContains (w : World) (cwd file content : String) :
    EffOk (validateFileContains w cwd file content) := by
  unfold validateFileContains
  apply effOk_bind (effOk_log_stat _)
  intro _
  split
  · exact effOk_pure _
  · split
    · exact effOk_pure _
    · apply effOk_bind (effOk_log_readFile _)
      intro _
      split
      · exact effOk_pure _
      · split <;> exact effOk_pure _

lemma effOk_validateStepM (w : World) (v : Validation) (cwd : String) :
    EffOk (validateStepM w v cwd) := by
  unfold validateStepM
  split
  · exact effOk_validateGitInitialized w cwd
  · match v.file with
    | some f => exact effOk_validateFileExists w cwd f
    | none => exact effOk_throw _
  · match v.files with
    | some fs => exact effOk_validateFilesExist w cwd fs
    | none => exact effOk_throw _
  · match v.file with
    | some f => exact effOk_validateFileStaged w cwd f
    | none =>
      apply effOk_bind (effOk_getStagedEntries w cwd)
      intro staged?
      match staged? with
      | none => exact effOk_pure _
      | some _ => exact effOk_throw _
  · match v.files with
    | some fs => exact effOk_validateFilesStaged w cwd fs
    | none =>
      apply effOk_bind (effOk_getStagedEntries w cwd)
      intro staged?
      match staged? with
      | none => exact effOk_pure _
      | some _ => exact effOk_throw _
  · match v.file with
    | some f => exact effOk_validateFileCommitted w cwd f
    | none => exact effOk_throw _
  · exact effOk_validateCommitExists w cwd v.message
  · match v.branch with
    | some b => exact effOk_validateBranchExists w cwd b
    | none =>
      apply effOk_bind (effOk_runExec w cwd (by decide))
      intro result
      split <;> exact effOk_pure _
  · match v.branch with
    | some b => exact effOk_validateBranchActive w cwd b
    | none =>
      apply effOk_bind (effOk_runExec w cwd (by decide))
      intro result
      split <;> exact effOk_pure _
  · match v.file, v.content with
    | some f, some c => exact effOk_validateFileContains w cwd f c
    | none, _ => exact effOk_pure _
    | some f, none => exact effOk_validateFileContains w cwd f "undefined"
  · exact effOk_pure _

/-- Claim C9 (confirmed): one evaluation call is read-only inspection.
Every effect in the log of any `validateStep` run — for every descriptor
and world — is a directory listing, a stat, a file read, an access probe,
or one of the read-only git query commands (`git diff --cached
--name-only -z`, `git ls-files -z`, `git log --oneline -1`,
`git log --oneline -- "<path>"`, `git branch`,
`git branch --show-current`); the engine issues no writing effect, so the
filesystem and git state of the working directory are left unchanged. -/
theorem c9_validate_step_read_only (w : World) (v : Validation) (cwd : String) :
    ((validateStep w v cwd).2).all Effect.isReadOnly = true := by
  have h := effOk_validateStepM w v cwd [] rfl
  unfold validateStep
  rcases hh : validateStepM w v cwd [] with ⟨res, fx⟩
  rw [hh] at h
  cases res <;> simpa using h

end TerminalTutor
